import Mathlib

/-!
# SBUS channel decoding (`src/main/rx/sbus_channels.c`)

A shallow embedding of the SBUS frame-to-channel-array decoders and of the
linear value codec, followed by the properties established about them.

Conventions of the embedding:

* `uint16_t` / `uint8_t` values are natural numbers; a conversion to
  `uint16_t` is an explicit `% 65536`.
* C `int` arithmetic is done in `Int`; C division (truncation toward zero) is
  `Int.tdiv`.  Every intermediate value of the codec is below `2^31` in
  magnitude for 16-bit arguments, so no `int` overflow is modelled.
* `rxRuntimeConfig->channelData` is a `uint16_t *`; the memory it points to is
  a map from slot index to slot value, and a decode call returns the updated
  configuration together with the returned status byte.
-/

namespace Sbus

/-! ## Constants -/

/-- The raw value written for a digital channel that is off. -/
def SBUS_DIGITAL_CHANNEL_MIN : Nat := 173

/-- The raw value written for a digital channel that is on. -/
def SBUS_DIGITAL_CHANNEL_MAX : Nat := 1812

/-- Modelled from the spec: the frame-status bit `RX_FRAME_COMPLETE` of
`rx/rx.h` (not among the sources); the spec gives COMPLETE = 1. -/
def RX_FRAME_COMPLETE : Nat := 1

/-- Modelled from the spec: the frame-status bit `RX_FRAME_FAILSAFE` of
`rx/rx.h` (not among the sources); the spec gives FAILSAFE = 2. -/
def RX_FRAME_FAILSAFE : Nat := 2

/-- Modelled from the spec: the frame-status bit `RX_FRAME_DROPPED` of
`rx/rx.h` (not among the sources); the spec gives DROPPED = 4. -/
def RX_FRAME_DROPPED : Nat := 4

/-- The four flag masks of `rx/sbus_channels.h`.  The header is not among the
sources and the spec leaves the bit positions open, so the decoders take the
masks as a parameter. -/
structure SbusFlagMasks where
  SBUS_FLAG_CHANNEL_DG1 : Nat
  SBUS_FLAG_CHANNEL_DG2 : Nat
  SBUS_FLAG_SIGNAL_LOSS : Nat
  SBUS_FLAG_FAILSAFE_ACTIVE : Nat

/-! ## Data model -/

/-- Modelled from the spec: the record type `sbusChannels_t` of
`rx/sbus_channels.h` (not among the sources): sixteen analog fields
`chan0` .. `chan15`, each an unsigned value of the 11-bit raw domain
`[0, 2047]`, and the flag byte. -/
structure sbusChannels_t where
  chan0 : Fin 2048
  chan1 : Fin 2048
  chan2 : Fin 2048
  chan3 : Fin 2048
  chan4 : Fin 2048
  chan5 : Fin 2048
  chan6 : Fin 2048
  chan7 : Fin 2048
  chan8 : Fin 2048
  chan9 : Fin 2048
  chan10 : Fin 2048
  chan11 : Fin 2048
  chan12 : Fin 2048
  chan13 : Fin 2048
  chan14 : Fin 2048
  chan15 : Fin 2048
  flags : Nat

/-- The analog field `chan_i` of a record, by number. -/
def sbusChannels_t.chan (c : sbusChannels_t) (i : Fin 16) : Fin 2048 :=
  match i with
  | ⟨0, _⟩ => c.chan0
  | ⟨1, _⟩ => c.chan1
  | ⟨2, _⟩ => c.chan2
  | ⟨3, _⟩ => c.chan3
  | ⟨4, _⟩ => c.chan4
  | ⟨5, _⟩ => c.chan5
  | ⟨6, _⟩ => c.chan6
  | ⟨7, _⟩ => c.chan7
  | ⟨8, _⟩ => c.chan8
  | ⟨9, _⟩ => c.chan9
  | ⟨10, _⟩ => c.chan10
  | ⟨11, _⟩ => c.chan11
  | ⟨12, _⟩ => c.chan12
  | ⟨13, _⟩ => c.chan13
  | ⟨14, _⟩ => c.chan14
  | ⟨15, _⟩ => c.chan15
  | ⟨n + 16, h⟩ => absurd h (by omega)

/-- The values the function pointer `rcReadRawFn` takes in this file: not yet
set, or the address of `sbusChannelsReadRawRC`. -/
inductive rcReadRawDataFnPtr where
  | unset
  | sbusChannelsReadRawRC
  deriving DecidableEq

/-- The part of `rxRuntimeConfig_t` this file uses: the `uint16_t` slots
reached through the pointer `channelData`, by index, and the registered read
accessor `rcReadRawFn`. -/
structure rxRuntimeConfig_t where
  channelData : Nat → Nat
  rcReadRawFn : rcReadRawDataFnPtr

/-- The assignment `sbusChannelData[i] = v` to a `uint16_t` slot. -/
def store (d : Nat → Nat) (i v : Nat) : Nat → Nat :=
  fun j => if j = i then v % 65536 else d j

/-- The test `channels->flags & mask` of a C condition: true when the bitwise
conjunction is not zero. -/
def flagSet (flags mask : Nat) : Bool :=
  (flags &&& mask) != 0

/-! ## The decoders -/

/-- The function `sbus26ChannelsDecode`: the sixteen analog fields go to slots
`offset .. offset + 15`, the low half also writes the digital slots 32 and 33;
the returned `uint8_t` is the frame status. -/
def sbus26ChannelsDecode (m : SbusFlagMasks) (rxRuntimeConfig : rxRuntimeConfig_t)
    (channels : sbusChannels_t) (highChannels : Bool) : rxRuntimeConfig_t × Nat :=
  let offset : Nat := if highChannels then 16 else 0
  let d := rxRuntimeConfig.channelData
  let d := store d (0 + offset) channels.chan0
  let d := store d (1 + offset) channels.chan1
  let d := store d (2 + offset) channels.chan2
  let d := store d (3 + offset) channels.chan3
  let d := store d (4 + offset) channels.chan4
  let d := store d (5 + offset) channels.chan5
  let d := store d (6 + offset) channels.chan6
  let d := store d (7 + offset) channels.chan7
  let d := store d (8 + offset) channels.chan8
  let d := store d (9 + offset) channels.chan9
  let d := store d (10 + offset) channels.chan10
  let d := store d (11 + offset) channels.chan11
  let d := store d (12 + offset) channels.chan12
  let d := store d (13 + offset) channels.chan13
  let d := store d (14 + offset) channels.chan14
  let d := store d (15 + offset) channels.chan15
  let d :=
    if !highChannels then
      let d :=
        if flagSet channels.flags m.SBUS_FLAG_CHANNEL_DG1 then
          store d 32 SBUS_DIGITAL_CHANNEL_MAX
        else
          store d 32 SBUS_DIGITAL_CHANNEL_MIN
      if flagSet channels.flags m.SBUS_FLAG_CHANNEL_DG2 then
        store d 33 SBUS_DIGITAL_CHANNEL_MAX
      else
        store d 33 SBUS_DIGITAL_CHANNEL_MIN
    else d
  let rxRuntimeConfig := { rxRuntimeConfig with channelData := d }
  if flagSet channels.flags m.SBUS_FLAG_FAILSAFE_ACTIVE then
    (rxRuntimeConfig, (RX_FRAME_COMPLETE ||| RX_FRAME_FAILSAFE) % 256)
  else if flagSet channels.flags m.SBUS_FLAG_SIGNAL_LOSS then
    (rxRuntimeConfig, (RX_FRAME_COMPLETE ||| RX_FRAME_DROPPED) % 256)
  else
    (rxRuntimeConfig, RX_FRAME_COMPLETE % 256)

/-- The function `sbusChannelsDecode`: the sixteen analog fields go to slots
0 .. 15 and the two digital channels to slots 16 and 17; the returned
`uint8_t` is the frame status. -/
def sbusChannelsDecode (m : SbusFlagMasks) (rxRuntimeConfig : rxRuntimeConfig_t)
    (channels : sbusChannels_t) : rxRuntimeConfig_t × Nat :=
  let d := rxRuntimeConfig.channelData
  let d := store d 0 channels.chan0
  let d := store d 1 channels.chan1
  let d := store d 2 channels.chan2
  let d := store d 3 channels.chan3
  let d := store d 4 channels.chan4
  let d := store d 5 channels.chan5
  let d := store d 6 channels.chan6
  let d := store d 7 channels.chan7
  let d := store d 8 channels.chan8
  let d := store d 9 channels.chan9
  let d := store d 10 channels.chan10
  let d := store d 11 channels.chan11
  let d := store d 12 channels.chan12
  let d := store d 13 channels.chan13
  let d := store d 14 channels.chan14
  let d := store d 15 channels.chan15
  let d :=
    if flagSet channels.flags m.SBUS_FLAG_CHANNEL_DG1 then
      store d 16 SBUS_DIGITAL_CHANNEL_MAX
    else
      store d 16 SBUS_DIGITAL_CHANNEL_MIN
  let d :=
    if flagSet channels.flags m.SBUS_FLAG_CHANNEL_DG2 then
      store d 17 SBUS_DIGITAL_CHANNEL_MAX
    else
      store d 17 SBUS_DIGITAL_CHANNEL_MIN
  let rxRuntimeConfig := { rxRuntimeConfig with channelData := d }
  if flagSet channels.flags m.SBUS_FLAG_FAILSAFE_ACTIVE then
    (rxRuntimeConfig, (RX_FRAME_COMPLETE ||| RX_FRAME_FAILSAFE) % 256)
  else if flagSet channels.flags m.SBUS_FLAG_SIGNAL_LOSS then
    (rxRuntimeConfig, (RX_FRAME_COMPLETE ||| RX_FRAME_DROPPED) % 256)
  else
    (rxRuntimeConfig, RX_FRAME_COMPLETE % 256)

/-! ## The value codec -/

/-- Modelled from the spec: the helper `constrain` of `common/maths.h` (not
among the sources), which clamps `amt` to `[low, high]`. -/
def constrain (amt low high : Int) : Int :=
  if amt < low then low else if amt > high then high else amt

/-- The function `sbusDecodeChannelValue`; `sbusValue` is a `uint16_t`. -/
def sbusDecodeChannelValue (sbusValue : Nat) (safeValuesOnly : Bool) : Nat :=
  if safeValuesOnly then
    (((5 * constrain sbusValue SBUS_DIGITAL_CHANNEL_MIN SBUS_DIGITAL_CHANNEL_MAX).tdiv 8
      + 880) % 65536).toNat
  else
    (((5 * constrain sbusValue 0 2047).tdiv 8 + 880) % 65536).toNat

/-- The function `sbusEncodeChannelValue`; `rcValue` is a `uint16_t`. -/
def sbusEncodeChannelValue (rcValue : Nat) : Nat :=
  ((constrain ((((rcValue : Int) - 880) * 8 + 4).tdiv 5)
      SBUS_DIGITAL_CHANNEL_MIN SBUS_DIGITAL_CHANNEL_MAX) % 65536).toNat

/-! ## Initialisation and the read accessor -/

/-- Modelled from the spec: the constant `PWM_RANGE_MIDDLE` (its header is not
among the sources); the spec gives the mid-stick value 1500. -/
def PWM_RANGE_MIDDLE : Nat := 1500

/-- The function `sbusChannelsReadRawRC`; `chan` is a `uint8_t`. -/
def sbusChannelsReadRawRC (rxRuntimeConfig : rxRuntimeConfig_t) (chan : Nat) : Nat :=
  sbusDecodeChannelValue (rxRuntimeConfig.channelData chan) false

/-- A call through the function pointer `rcReadRawFn`; a pointer that was never
set gives no value. -/
def rcReadRawFn_call (rxRuntimeConfig : rxRuntimeConfig_t) (chan : Nat) : Option Nat :=
  match rxRuntimeConfig.rcReadRawFn with
  | rcReadRawDataFnPtr.unset => none
  | rcReadRawDataFnPtr.sbusChannelsReadRawRC =>
      some (sbusChannelsReadRawRC rxRuntimeConfig chan)

/-- The function `sbusChannelsInit`: registers the accessor and runs the loop
`for (b = 0; b < SBUS_MAX_CHANNEL; b++)` over the slots.  The constant
`SBUS_MAX_CHANNEL` of `rx/sbus_channels.h` is not among the sources and is a
parameter. -/
def sbusChannelsInit (SBUS_MAX_CHANNEL : Nat) (rxRuntimeConfig : rxRuntimeConfig_t) :
    rxRuntimeConfig_t :=
  let rxRuntimeConfig :=
    { rxRuntimeConfig with rcReadRawFn := rcReadRawDataFnPtr.sbusChannelsReadRawRC }
  { rxRuntimeConfig with
    channelData := (List.range SBUS_MAX_CHANNEL).foldl
      (fun d b => store d b (((16 * (PWM_RANGE_MIDDLE : Int)).tdiv 10 - 1408) % 65536).toNat)
      rxRuntimeConfig.channelData }

/-- One decode call on the channel array: the standard decoder, or one half of
the extended decoder. -/
inductive DecodeCall where
  | standard (channels : sbusChannels_t)
  | extended (channels : sbusChannels_t) (highChannels : Bool)

/-- The configuration after one decode call. -/
def DecodeCall.apply (m : SbusFlagMasks) (rxRuntimeConfig : rxRuntimeConfig_t) :
    DecodeCall → rxRuntimeConfig_t
  | DecodeCall.standard channels => (sbusChannelsDecode m rxRuntimeConfig channels).1
  | DecodeCall.extended channels highChannels =>
      (sbus26ChannelsDecode m rxRuntimeConfig channels highChannels).1

/-- The configuration after a finite sequence of decode calls, first call
first. -/
def runDecodes (m : SbusFlagMasks) (rxRuntimeConfig : rxRuntimeConfig_t)
    (calls : List DecodeCall) : rxRuntimeConfig_t :=
  calls.foldl (DecodeCall.apply m) rxRuntimeConfig

/-! ## The codec as the spec words it -/

/-- The clamp of the spec: `clamp(x, lo, hi)`. -/
def specClamp (x lo hi : Int) : Int :=
  max lo (min x hi)

/-- The encode of the spec, in its words:
`clamp(floor(((normalized - 880) * 8 + 4) / 5), 173, 1812)`, the quotient taken
over the rationals and rounded down. -/
def specEncode (normalized : Nat) : Int :=
  specClamp ⌊((((normalized : Int) - 880) * 8 + 4 : Int) : ℚ) / 5⌋ 173 1812

/-- Rounding of a rational to the nearest integer, ties rounded up. -/
def roundHalfUp (q : ℚ) : Int :=
  ⌊q + 1 / 2⌋

/-- Decoding with the safe policy and encoding again, on raw values. -/
def rawRoundTrip (x : Nat) : Nat :=
  sbusEncodeChannelValue (sbusDecodeChannelValue x true)

/-! ## Concrete inputs -/

/-- A concrete assignment of the flag masks: one bit each, in the order of
the structure. -/
def masks0 : SbusFlagMasks := ⟨1, 2, 4, 8⟩

/-- A channel array with every slot zero. -/
def rx0 : rxRuntimeConfig_t := ⟨fun _ => 0, rcReadRawDataFnPtr.unset⟩

/-- A record whose field `chan_i` holds `100 + i`, with the given flag byte. -/
def record0 (flags : Nat) : sbusChannels_t :=
  { chan0 := 100, chan1 := 101, chan2 := 102, chan3 := 103, chan4 := 104, chan5 := 105,
    chan6 := 106, chan7 := 107, chan8 := 108, chan9 := 109, chan10 := 110, chan11 := 111,
    chan12 := 112, chan13 := 113, chan14 := 114, chan15 := 115, flags := flags }

end Sbus

/-! ## Frame status -/

namespace Sbus

/-- A stored analog field fits its `uint16_t` slot. -/
theorem chan_mod (x : Fin 2048) : x.val % 65536 = x.val :=
  Nat.mod_eq_of_lt (by omega)

/-- C1: when the failsafe flag of the record is set, both decoders (the
extended one for either half) return exactly COMPLETE|FAILSAFE, whatever the
other flags, the channel values and the prior array are; the status includes
FAILSAFE and does not include DROPPED. -/
theorem failsafe_status (m : SbusFlagMasks) (rx : rxRuntimeConfig_t) (c : sbusChannels_t)
    (h : flagSet c.flags m.SBUS_FLAG_FAILSAFE_ACTIVE = true) :
    ((sbusChannelsDecode m rx c).2 = RX_FRAME_COMPLETE ||| RX_FRAME_FAILSAFE ∧
      (sbusChannelsDecode m rx c).2 &&& RX_FRAME_FAILSAFE ≠ 0 ∧
      (sbusChannelsDecode m rx c).2 &&& RX_FRAME_DROPPED = 0) ∧
    ∀ highChannels : Bool,
      (sbus26ChannelsDecode m rx c highChannels).2 = RX_FRAME_COMPLETE ||| RX_FRAME_FAILSAFE ∧
      (sbus26ChannelsDecode m rx c highChannels).2 &&& RX_FRAME_FAILSAFE ≠ 0 ∧
      (sbus26ChannelsDecode m rx c highChannels).2 &&& RX_FRAME_DROPPED = 0 := by
  have e1 : (sbusChannelsDecode m rx c).2 = 3 := by
    simp only [sbusChannelsDecode, h, if_true]
    decide
  have e2 : ∀ hc : Bool, (sbus26ChannelsDecode m rx c hc).2 = 3 := by
    intro hc
    simp only [sbus26ChannelsDecode, h, if_true]
    decide
  refine ⟨?_, fun hc => ?_⟩
  · rw [e1]; decide
  · rw [e2 hc]; decide

/-- The statement of `failsafe_status` at a record with both the signal-loss and
the failsafe bit set. -/
theorem failsafe_status_witness :
    flagSet (record0 12).flags masks0.SBUS_FLAG_FAILSAFE_ACTIVE = true ∧
    flagSet (record0 12).flags masks0.SBUS_FLAG_SIGNAL_LOSS = true ∧
    (sbusChannelsDecode masks0 rx0 (record0 12)).2 = 3 ∧
    (sbus26ChannelsDecode masks0 rx0 (record0 12) true).2 = 3 ∧
    (sbus26ChannelsDecode masks0 rx0 (record0 12) false).2 = 3 :=
  have w := failsafe_status masks0 rx0 (record0 12) (by decide)
  ⟨by decide, by decide, w.1.1, (w.2 true).1, (w.2 false).1⟩

/-- The status byte computed by the tail both decoders share, as a function
of the two link flags. -/
theorem sbusChannelsDecode_status (m : SbusFlagMasks) (rx : rxRuntimeConfig_t)
    (c : sbusChannels_t) :
    (sbusChannelsDecode m rx c).2 =
      if flagSet c.flags m.SBUS_FLAG_FAILSAFE_ACTIVE = true then 3
      else if flagSet c.flags m.SBUS_FLAG_SIGNAL_LOSS = true then 5 else 1 := by
  unfold sbusChannelsDecode
  dsimp only
  split_ifs <;> rfl

theorem sbus26ChannelsDecode_status (m : SbusFlagMasks) (rx : rxRuntimeConfig_t)
    (c : sbusChannels_t) (highChannels : Bool) :
    (sbus26ChannelsDecode m rx c highChannels).2 =
      if flagSet c.flags m.SBUS_FLAG_FAILSAFE_ACTIVE = true then 3
      else if flagSet c.flags m.SBUS_FLAG_SIGNAL_LOSS = true then 5 else 1 := by
  unfold sbus26ChannelsDecode
  dsimp only
  split_ifs <;> rfl

/-- The channel array left by `sbusChannelsDecode`, slot by slot. -/
theorem sbusChannelsDecode_data (m : SbusFlagMasks) (rx : rxRuntimeConfig_t)
    (c : sbusChannels_t) (j : Nat) :
    (sbusChannelsDecode m rx c).1.channelData j =
      if j = 17 then (if flagSet c.flags m.SBUS_FLAG_CHANNEL_DG2 = true then 1812 else 173)
      else if j = 16 then
        (if flagSet c.flags m.SBUS_FLAG_CHANNEL_DG1 = true then 1812 else 173)
      else if j = 15 then c.chan15.val
      else if j = 14 then c.chan14.val
      else if j = 13 then c.chan13.val
      else if j = 12 then c.chan12.val
      else if j = 11 then c.chan11.val
      else if j = 10 then c.chan10.val
      else if j = 9 then c.chan9.val
      else if j = 8 then c.chan8.val
      else if j = 7 then c.chan7.val
      else if j = 6 then c.chan6.val
      else if j = 5 then c.chan5.val
      else if j = 4 then c.chan4.val
      else if j = 3 then c.chan3.val
      else if j = 2 then c.chan2.val
      else if j = 1 then c.chan1.val
      else if j = 0 then c.chan0.val
      else rx.channelData j := by
  have hfst : ∀ (b : Bool) (x : rxRuntimeConfig_t) (p q r : Nat),
      (if b = true then (x, p) else if flagSet c.flags m.SBUS_FLAG_SIGNAL_LOSS = true
        then (x, q) else (x, r)).1 = x := by
    intro b x p q r
    split_ifs <;> rfl
  unfold sbusChannelsDecode
  dsimp only
  rw [hfst]
  cases flagSet c.flags m.SBUS_FLAG_CHANNEL_DG1 <;>
    cases flagSet c.flags m.SBUS_FLAG_CHANNEL_DG2 <;>
    simp only [store, chan_mod, if_true, if_false, Bool.false_eq_true] <;> rfl

/-- The channel array left by the low half of `sbus26ChannelsDecode`, slot by
slot. -/
theorem sbus26ChannelsDecode_low_data (m : SbusFlagMasks) (rx : rxRuntimeConfig_t)
    (c : sbusChannels_t) (j : Nat) :
    (sbus26ChannelsDecode m rx c false).1.channelData j =
      if j = 33 then (if flagSet c.flags m.SBUS_FLAG_CHANNEL_DG2 = true then 1812 else 173)
      else if j = 32 then
        (if flagSet c.flags m.SBUS_FLAG_CHANNEL_DG1 = true then 1812 else 173)
      else if j = 15 then c.chan15.val
      else if j = 14 then c.chan14.val
      else if j = 13 then c.chan13.val
      else if j = 12 then c.chan12.val
      else if j = 11 then c.chan11.val
      else if j = 10 then c.chan10.val
      else if j = 9 then c.chan9.val
      else if j = 8 then c.chan8.val
      else if j = 7 then c.chan7.val
      else if j = 6 then c.chan6.val
      else if j = 5 then c.chan5.val
      else if j = 4 then c.chan4.val
      else if j = 3 then c.chan3.val
      else if j = 2 then c.chan2.val
      else if j = 1 then c.chan1.val
      else if j = 0 then c.chan0.val
      else rx.channelData j := by
  have hfst : ∀ (b : Bool) (x : rxRuntimeConfig_t) (p q r : Nat),
      (if b = true then (x, p) else if flagSet c.flags m.SBUS_FLAG_SIGNAL_LOSS = true
        then (x, q) else (x, r)).1 = x := by
    intro b x p q r
    split_ifs <;> rfl
  unfold sbus26ChannelsDecode
  dsimp only
  rw [hfst]
  cases flagSet c.flags m.SBUS_FLAG_CHANNEL_DG1 <;>
    cases flagSet c.flags m.SBUS_FLAG_CHANNEL_DG2 <;>
    simp only [store, chan_mod, if_true, if_false, Bool.false_eq_true, Bool.not_false,
      Nat.add_zero] <;> rfl

/-- The channel array left by the high half of `sbus26ChannelsDecode`, slot by
slot. -/
theorem sbus26ChannelsDecode_high_data (m : SbusFlagMasks) (rx : rxRuntimeConfig_t)
    (c : sbusChannels_t) (j : Nat) :
    (sbus26ChannelsDecode m rx c true).1.channelData j =
      if j = 31 then c.chan15.val
      else if j = 30 then c.chan14.val
      else if j = 29 then c.chan13.val
      else if j = 28 then c.chan12.val
      else if j = 27 then c.chan11.val
      else if j = 26 then c.chan10.val
      else if j = 25 then c.chan9.val
      else if j = 24 then c.chan8.val
      else if j = 23 then c.chan7.val
      else if j = 22 then c.chan6.val
      else if j = 21 then c.chan5.val
      else if j = 20 then c.chan4.val
      else if j = 19 then c.chan3.val
      else if j = 18 then c.chan2.val
      else if j = 17 then c.chan1.val
      else if j = 16 then c.chan0.val
      else rx.channelData j := by
  have hfst : ∀ (b : Bool) (x : rxRuntimeConfig_t) (p q r : Nat),
      (if b = true then (x, p) else if flagSet c.flags m.SBUS_FLAG_SIGNAL_LOSS = true
        then (x, q) else (x, r)).1 = x := by
    intro b x p q r
    split_ifs <;> rfl
  unfold sbus26ChannelsDecode
  dsimp only
  rw [hfst]
  simp only [store, chan_mod, if_true, if_false, Bool.not_true, Bool.false_eq_true]

/-- C2: with the signal-loss flag set and the failsafe flag clear both decoders
return COMPLETE|DROPPED (DROPPED included, FAILSAFE not); with neither flag set
they return exactly COMPLETE; and every returned status includes COMPLETE. -/
theorem dropped_and_complete_status (m : SbusFlagMasks) (rx : rxRuntimeConfig_t)
    (c : sbusChannels_t) (highChannels : Bool) :
    (flagSet c.flags m.SBUS_FLAG_SIGNAL_LOSS = true →
      flagSet c.flags m.SBUS_FLAG_FAILSAFE_ACTIVE = false →
        ((sbusChannelsDecode m rx c).2 = RX_FRAME_COMPLETE ||| RX_FRAME_DROPPED ∧
          (sbusChannelsDecode m rx c).2 &&& RX_FRAME_DROPPED ≠ 0 ∧
          (sbusChannelsDecode m rx c).2 &&& RX_FRAME_FAILSAFE = 0) ∧
        ((sbus26ChannelsDecode m rx c highChannels).2
            = RX_FRAME_COMPLETE ||| RX_FRAME_DROPPED ∧
          (sbus26ChannelsDecode m rx c highChannels).2 &&& RX_FRAME_DROPPED ≠ 0 ∧
          (sbus26ChannelsDecode m rx c highChannels).2 &&& RX_FRAME_FAILSAFE = 0)) ∧
    (flagSet c.flags m.SBUS_FLAG_SIGNAL_LOSS = false →
      flagSet c.flags m.SBUS_FLAG_FAILSAFE_ACTIVE = false →
        (sbusChannelsDecode m rx c).2 = RX_FRAME_COMPLETE ∧
        (sbus26ChannelsDecode m rx c highChannels).2 = RX_FRAME_COMPLETE) ∧
    (sbusChannelsDecode m rx c).2 &&& RX_FRAME_COMPLETE ≠ 0 ∧
    (sbus26ChannelsDecode m rx c highChannels).2 &&& RX_FRAME_COMPLETE ≠ 0 := by
  rw [sbusChannelsDecode_status, sbus26ChannelsDecode_status]
  cases flagSet c.flags m.SBUS_FLAG_FAILSAFE_ACTIVE <;>
    cases flagSet c.flags m.SBUS_FLAG_SIGNAL_LOSS <;>
    decide

/-- The statement of `dropped_and_complete_status` at a record with only the
signal-loss bit set and at a record with no bit set. -/
theorem dropped_and_complete_status_witness :
    (flagSet (record0 4).flags masks0.SBUS_FLAG_SIGNAL_LOSS = true ∧
      flagSet (record0 4).flags masks0.SBUS_FLAG_FAILSAFE_ACTIVE = false ∧
      (sbusChannelsDecode masks0 rx0 (record0 4)).2 = 5 ∧
      (sbus26ChannelsDecode masks0 rx0 (record0 4) true).2 = 5) ∧
    (flagSet (record0 0).flags masks0.SBUS_FLAG_SIGNAL_LOSS = false ∧
      flagSet (record0 0).flags masks0.SBUS_FLAG_FAILSAFE_ACTIVE = false ∧
      (sbusChannelsDecode masks0 rx0 (record0 0)).2 = 1 ∧
      (sbus26ChannelsDecode masks0 rx0 (record0 0) false).2 = 1) :=
  have w4 := (dropped_and_complete_status masks0 rx0 (record0 4) true).1 (by decide) (by decide)
  have w0 := (dropped_and_complete_status masks0 rx0 (record0 0) false).2.1 (by decide)
    (by decide)
  ⟨⟨by decide, by decide, w4.1.1, w4.2.1⟩, ⟨by decide, by decide, w0.1, w0.2⟩⟩

/-! ## Slots written by the standard decoder -/

/-- C3: after `sbusChannelsDecode` slot `i` holds the record's field `chan_i`
unchanged (no scaling, no clamping), for every `i` in 0..15, whatever the prior
array and the record. -/
theorem standard_analog_slots (m : SbusFlagMasks) (rx : rxRuntimeConfig_t)
    (c : sbusChannels_t) (i : Fin 16) :
    (sbusChannelsDecode m rx c).1.channelData i.val = (c.chan i).val := by
  rw [sbusChannelsDecode_data]
  fin_cases i <;> rfl

/-- C4: after `sbusChannelsDecode` slot 16 holds 1812 when the flag
`digitalChannel1` is set and 173 when it is clear, and slot 17 likewise for
`digitalChannel2`, whatever the other flags, the analog fields and the prior
array are. -/
theorem standard_digital_slots (m : SbusFlagMasks) (rx : rxRuntimeConfig_t)
    (c : sbusChannels_t) :
    (sbusChannelsDecode m rx c).1.channelData 16 =
        (if flagSet c.flags m.SBUS_FLAG_CHANNEL_DG1 = true then 1812 else 173) ∧
    (sbusChannelsDecode m rx c).1.channelData 17 =
        (if flagSet c.flags m.SBUS_FLAG_CHANNEL_DG2 = true then 1812 else 173) := by
  constructor <;> rw [sbusChannelsDecode_data] <;> rfl

/-! ## The extended decoder -/

/-- C5, as stated, fails: on the all-zero array and a record with no flag set
the standard decoder leaves 173 in slot 16 while the low half of the extended
decoder leaves slot 16 at its prior value 0 (and writes 173 to slot 32, which
the standard decoder leaves at 0), so the two arrays differ. -/
theorem low_half_differs_from_standard :
    (sbusChannelsDecode masks0 rx0 (record0 0)).1.channelData 16 = 173 ∧
    (sbus26ChannelsDecode masks0 rx0 (record0 0) false).1.channelData 16 = 0 ∧
    (sbusChannelsDecode masks0 rx0 (record0 0)).1.channelData 32 = 0 ∧
    (sbus26ChannelsDecode masks0 rx0 (record0 0) false).1.channelData 32 = 173 ∧
    (sbus26ChannelsDecode masks0 rx0 (record0 0) false).1.channelData ≠
      (sbusChannelsDecode masks0 rx0 (record0 0)).1.channelData := by
  refine ⟨by decide, by decide, by decide, by decide, fun h => ?_⟩
  have h16 := congrFun h 16
  revert h16
  decide

/-- C5, amended: the low half of the extended decoder returns the same status
as the standard decoder and writes the same analog fields to slots 0..15, but
it writes the two digital values to slots 32 and 33 and leaves slots 16 and 17
at their prior values; on every slot other than 16, 17, 32 and 33 the two
resulting arrays agree. -/
theorem low_half_vs_standard (m : SbusFlagMasks) (rx : rxRuntimeConfig_t)
    (c : sbusChannels_t) :
    (sbus26ChannelsDecode m rx c false).2 = (sbusChannelsDecode m rx c).2 ∧
    (∀ i : Fin 16,
      (sbus26ChannelsDecode m rx c false).1.channelData i.val = (c.chan i).val) ∧
    ∀ j : Nat,
      (sbus26ChannelsDecode m rx c false).1.channelData j =
        if j = 16 then rx.channelData 16
        else if j = 17 then rx.channelData 17
        else if j = 32 then
          (if flagSet c.flags m.SBUS_FLAG_CHANNEL_DG1 = true then 1812 else 173)
        else if j = 33 then
          (if flagSet c.flags m.SBUS_FLAG_CHANNEL_DG2 = true then 1812 else 173)
        else (sbusChannelsDecode m rx c).1.channelData j := by
  refine ⟨?_, fun i => ?_, fun j => ?_⟩
  · rw [sbusChannelsDecode_status, sbus26ChannelsDecode_status]
  · rw [sbus26ChannelsDecode_low_data]
    fin_cases i <;> rfl
  · rw [sbus26ChannelsDecode_low_data, sbusChannelsDecode_data]
    by_cases h : j < 34
    · interval_cases j <;> rfl
    · simp (disch := omega) only [if_neg]

/-- C6: after the high half of `sbus26ChannelsDecode` slot `16 + i` holds the
record's field `chan_i`, for every `i` in 0..15, whatever the prior array and
the record. -/
theorem high_half_analog_slots (m : SbusFlagMasks) (rx : rxRuntimeConfig_t)
    (c : sbusChannels_t) (i : Fin 16) :
    (sbus26ChannelsDecode m rx c true).1.channelData (16 + i.val) = (c.chan i).val := by
  rw [sbus26ChannelsDecode_high_data]
  fin_cases i <;> rfl

/-- C7, as stated, fails: on the all-zero array the high half overwrites
slots 16 and 17 with the record's fields `chan0 = 100` and `chan1 = 101`, so
they do not keep their prior value 0. -/
theorem high_half_overwrites_16_17 :
    rx0.channelData 16 = 0 ∧ rx0.channelData 17 = 0 ∧
    (sbus26ChannelsDecode masks0 rx0 (record0 0) true).1.channelData 16 = 100 ∧
    (sbus26ChannelsDecode masks0 rx0 (record0 0) true).1.channelData 17 = 101 ∧
    ¬ ((sbus26ChannelsDecode masks0 rx0 (record0 0) true).1.channelData 16
          = rx0.channelData 16 ∧
        (sbus26ChannelsDecode masks0 rx0 (record0 0) true).1.channelData 17
          = rx0.channelData 17) := by
  decide

/-- C7, amended: the high half of `sbus26ChannelsDecode` leaves slots 32 and 33,
the digital slots of the extended layout, at the values they held before the
call (slots 16 and 17 receive `chan0` and `chan1`). -/
theorem high_half_keeps_digital_slots (m : SbusFlagMasks) (rx : rxRuntimeConfig_t)
    (c : sbusChannels_t) :
    (sbus26ChannelsDecode m rx c true).1.channelData 32 = rx.channelData 32 ∧
    (sbus26ChannelsDecode m rx c true).1.channelData 33 = rx.channelData 33 ∧
    (sbus26ChannelsDecode m rx c true).1.channelData 16 = c.chan0.val ∧
    (sbus26ChannelsDecode m rx c true).1.channelData 17 = c.chan1.val := by
  refine ⟨?_, ?_, ?_, ?_⟩ <;> rw [sbus26ChannelsDecode_high_data] <;> rfl

/-! ## The value codec -/

/-- The scaling `5 * k / 8 + 880` of a clamped raw value, done in `int` and
returned as `uint16_t`, is the same expression over the naturals. -/
theorem u16_scale (k : Nat) (hk : k ≤ 2047) :
    (((5 * (k : Int)).tdiv 8 + 880) % 65536).toNat = 5 * k / 8 + 880 := by
  rw [Int.tdiv_eq_ediv (by omega) (by norm_num)]
  have h1 : (5 * (k : Int)) / 8 + 880 < 65536 := by omega
  have h0 : 0 ≤ (5 * (k : Int)) / 8 + 880 := by omega
  rw [Int.emod_eq_of_lt h0 h1]
  omega

/-- The full-range decode over the naturals: clamp to `[0, 2047]`, scale. -/
theorem sbusDecodeChannelValue_full (raw : Nat) :
    sbusDecodeChannelValue raw false = 5 * min raw 2047 / 8 + 880 := by
  have hc : constrain (raw : Int) 0 2047 = ((min raw 2047 : Nat) : Int) := by
    unfold constrain
    split_ifs <;> omega
  unfold sbusDecodeChannelValue
  simp only [Bool.false_eq_true, if_false]
  rw [hc, u16_scale _ (by omega)]

/-- The safe decode over the naturals: clamp to `[173, 1812]`, scale. -/
theorem sbusDecodeChannelValue_safe (raw : Nat) :
    sbusDecodeChannelValue raw true = 5 * max 173 (min raw 1812) / 8 + 880 := by
  have hc : constrain (raw : Int) (SBUS_DIGITAL_CHANNEL_MIN : Nat) (SBUS_DIGITAL_CHANNEL_MAX : Nat)
      = ((max 173 (min raw 1812) : Nat) : Int) := by
    unfold constrain SBUS_DIGITAL_CHANNEL_MIN SBUS_DIGITAL_CHANNEL_MAX
    split_ifs <;> omega
  unfold sbusDecodeChannelValue
  simp only [if_true]
  rw [hc, u16_scale _ (by omega)]

/-- The encode over the naturals; below 880 the `int` numerator is negative and
the truncated quotient is not positive, so the clamp returns 173. -/
theorem sbusEncodeChannelValue_eq (n : Nat) :
    sbusEncodeChannelValue n =
      if n < 880 then 173 else max 173 (min (((n - 880) * 8 + 4) / 5) 1812) := by
  have hu : ∀ v : Int, 173 ≤ v → v ≤ 1812 → (v % 65536).toNat = v.toNat := by
    intro v h0 h1
    rw [Int.emod_eq_of_lt (by omega) (by omega)]
  have hr : 173 ≤ constrain ((((n : Int) - 880) * 8 + 4).tdiv 5)
        (SBUS_DIGITAL_CHANNEL_MIN : Nat) (SBUS_DIGITAL_CHANNEL_MAX : Nat) ∧
      constrain ((((n : Int) - 880) * 8 + 4).tdiv 5)
        (SBUS_DIGITAL_CHANNEL_MIN : Nat) (SBUS_DIGITAL_CHANNEL_MAX : Nat) ≤ 1812 := by
    unfold constrain SBUS_DIGITAL_CHANNEL_MIN SBUS_DIGITAL_CHANNEL_MAX
    split_ifs <;> omega
  unfold sbusEncodeChannelValue
  rw [hu _ hr.1 hr.2]
  unfold constrain SBUS_DIGITAL_CHANNEL_MIN SBUS_DIGITAL_CHANNEL_MAX
  by_cases hn : n < 880
  · have hneg : (((n : Int) - 880) * 8 + 4).tdiv 5 ≤ 0 := by
      have e : ((n : Int) - 880) * 8 + 4 = -((880 - (n : Int)) * 8 - 4) := by ring
      rw [e, Int.neg_tdiv, Int.tdiv_eq_ediv (by omega) (by norm_num)]
      omega
    rw [if_pos hn, if_pos (by omega)]
    rfl
  · rw [if_neg hn, Int.tdiv_eq_ediv (by omega) (by norm_num)]
    split_ifs <;> omega
/-- C8: for every raw value in `[0, 2047]` the full-range decode lies in
`[880, 2159]`, and the full-range decode is non-decreasing in the raw value. -/
theorem decode_full_range_monotone (raw raw1 raw2 : Nat) (hraw : raw ≤ 2047)
    (h12 : raw1 ≤ raw2) :
    (880 ≤ sbusDecodeChannelValue raw false ∧ sbusDecodeChannelValue raw false ≤ 2159) ∧
    sbusDecodeChannelValue raw1 false ≤ sbusDecodeChannelValue raw2 false := by
  simp only [sbusDecodeChannelValue_full]
  omega

/-- The statement of `decode_full_range_monotone` at the two ends of the raw
domain. -/
theorem decode_full_range_monotone_witness :
    (2047 ≤ 2047 ∧ 0 ≤ 2047) ∧
    (880 ≤ sbusDecodeChannelValue 2047 false ∧ sbusDecodeChannelValue 2047 false ≤ 2159) ∧
    sbusDecodeChannelValue 0 false ≤ sbusDecodeChannelValue 2047 false :=
  ⟨by decide, decode_full_range_monotone 2047 0 2047 (by decide) (by decide)⟩

/-- C9: for every raw value in `[173, 1812]` the safe decode equals
`raw * 5 / 8 + 880` (integer division) and lies in `[988, 2012]`; the bounds
are attained at the endpoints: 173 decodes to 988 and 1812 to 2012. -/
theorem decode_safe_range (raw : Nat) (h1 : 173 ≤ raw) (h2 : raw ≤ 1812) :
    sbusDecodeChannelValue raw true = raw * 5 / 8 + 880 ∧
    988 ≤ sbusDecodeChannelValue raw true ∧ sbusDecodeChannelValue raw true ≤ 2012 ∧
    sbusDecodeChannelValue 173 true = 988 ∧ sbusDecodeChannelValue 1812 true = 2012 := by
  simp only [sbusDecodeChannelValue_safe]
  omega

/-- The statement of `decode_safe_range` at the raw value 993. -/
theorem decode_safe_range_witness :
    (173 ≤ 993 ∧ 993 ≤ 1812) ∧
    sbusDecodeChannelValue 993 true = 993 * 5 / 8 + 880 ∧
    988 ≤ sbusDecodeChannelValue 993 true ∧ sbusDecodeChannelValue 993 true ≤ 2012 ∧
    sbusDecodeChannelValue 173 true = 988 ∧ sbusDecodeChannelValue 1812 true = 2012 :=
  ⟨by decide, decode_safe_range 993 (by decide) (by decide)⟩

/-- C10: decoding with the safe policy and encoding again returns 173 for 173
and 1812 for 1812, and for every raw `x` in `[173, 1812]` the result differs
from `x` by at most 1. -/
theorem raw_round_trip (x : Nat) (h1 : 173 ≤ x) (h2 : x ≤ 1812) :
    sbusEncodeChannelValue (sbusDecodeChannelValue 173 true) = 173 ∧
    sbusEncodeChannelValue (sbusDecodeChannelValue 1812 true) = 1812 ∧
    |((sbusEncodeChannelValue (sbusDecodeChannelValue x true) : Nat) : Int) - (x : Int)|
      ≤ 1 := by
  simp only [sbusDecodeChannelValue_safe, sbusEncodeChannelValue_eq]
  refine ⟨by decide, by decide, ?_⟩
  rw [if_neg (by omega), abs_le]
  constructor <;> omega

/-- The statement of `raw_round_trip` at the raw value 174, which comes back
as 173. -/
theorem raw_round_trip_witness :
    (173 ≤ 174 ∧ 174 ≤ 1812) ∧
    sbusEncodeChannelValue (sbusDecodeChannelValue 174 true) = 173 ∧
    |((sbusEncodeChannelValue (sbusDecodeChannelValue 174 true) : Nat) : Int) - (174 : Nat)|
      ≤ 1 :=
  ⟨by decide, by decide, (raw_round_trip 174 (by decide) (by decide)).2.2⟩

/-! ## The encode against the spec's formula -/

/-- The spec's rounded-down quotient by 5 is the integer floor division. -/
theorem floor_div_five (x : Int) : ⌊((x : Int) : ℚ) / 5⌋ = x / 5 := by
  have h := Rat.floor_intCast_div_natCast x 5
  simpa using h

/-- C11: for every 16-bit normalized value `n`, also below 880 where the C
quotient truncates toward zero, `sbusEncodeChannelValue n` equals the spec's
`clamp(floor(((n - 880) * 8 + 4) / 5), 173, 1812)` and so lies in
`[173, 1812]`; every `n ≤ 988` encodes to 173 and every `n ≥ 2012` to 1812. -/
theorem encode_matches_spec (n : Nat) (hn : n < 65536) :
    ((sbusEncodeChannelValue n : Nat) : Int) = specEncode n ∧
    173 ≤ sbusEncodeChannelValue n ∧ sbusEncodeChannelValue n ≤ 1812 ∧
    (n ≤ 988 → sbusEncodeChannelValue n = 173) ∧
    (2012 ≤ n → sbusEncodeChannelValue n = 1812) := by
  rw [sbusEncodeChannelValue_eq]
  unfold specEncode specClamp
  rw [floor_div_five]
  split_ifs with h <;> omega

/-- The statement of `encode_matches_spec` at 0, where the `int` numerator is
negative, and at the two ends of the safe normalized range. -/
theorem encode_matches_spec_witness :
    (0 < 65536 ∧ 988 < 65536 ∧ 2012 < 65536) ∧
    ((sbusEncodeChannelValue 0 : Nat) : Int) = specEncode 0 ∧
    sbusEncodeChannelValue 0 = 173 ∧
    sbusEncodeChannelValue 988 = 173 ∧
    sbusEncodeChannelValue 2012 = 1812 :=
  have w0 := encode_matches_spec 0 (by decide)
  have w1 := encode_matches_spec 988 (by decide)
  have w2 := encode_matches_spec 2012 (by decide)
  ⟨by decide, w0.1, w0.2.2.2.1 (by decide), w1.2.2.2.1 (by decide), w2.2.2.2.2 (by decide)⟩

/-! ## Initialisation -/

/-- The loop of `sbusChannelsInit`: storing `v` in the slots `0 .. n - 1`. -/
theorem init_loop_data (v : Nat) (n : Nat) (d : Nat → Nat) (i : Nat) :
    (List.range n).foldl (fun d b => store d b v) d i =
      if i < n then v % 65536 else d i := by
  induction n with
  | zero => simp
  | succ k ih =>
    rw [List.range_succ, List.foldl_append]
    simp only [List.foldl_cons, List.foldl_nil, store]
    by_cases h : i = k
    · subst h
      simp
    · rw [if_neg h, ih]
      by_cases h2 : i < k
      · rw [if_pos h2, if_pos (by omega)]
      · rw [if_neg h2, if_neg (by omega)]

/-- The channel array left by `sbusChannelsInit`, slot by slot. -/
theorem sbusChannelsInit_data (N : Nat) (rx : rxRuntimeConfig_t) (i : Nat) :
    (sbusChannelsInit N rx).channelData i = if i < N then 992 else rx.channelData i := by
  unfold sbusChannelsInit
  simp only [init_loop_data]
  rfl

/-- C12: after `sbusChannelsInit` and before any decode call every slot
`i < SBUS_MAX_CHANNEL` holds `(16 * 1500) / 10 - 1408 = 992`, the registered
accessor is `sbusChannelsReadRawRC`, and reading slot `i` through it returns
`sbusDecodeChannelValue 992 false = 1500`. -/
theorem init_slots_and_read (SBUS_MAX_CHANNEL : Nat) (rx : rxRuntimeConfig_t) (i : Nat)
    (hi : i < SBUS_MAX_CHANNEL) :
    (sbusChannelsInit SBUS_MAX_CHANNEL rx).channelData i = 992 ∧
    (16 * PWM_RANGE_MIDDLE) / 10 - 1408 = 992 ∧
    (sbusChannelsInit SBUS_MAX_CHANNEL rx).rcReadRawFn
      = rcReadRawDataFnPtr.sbusChannelsReadRawRC ∧
    rcReadRawFn_call (sbusChannelsInit SBUS_MAX_CHANNEL rx) i = some 1500 ∧
    sbusChannelsReadRawRC (sbusChannelsInit SBUS_MAX_CHANNEL rx) i
      = sbusDecodeChannelValue 992 false ∧
    sbusDecodeChannelValue 992 false = 1500 := by
  have hd : (sbusChannelsInit SBUS_MAX_CHANNEL rx).channelData i = 992 := by
    rw [sbusChannelsInit_data, if_pos hi]
  have hr : sbusChannelsReadRawRC (sbusChannelsInit SBUS_MAX_CHANNEL rx) i
      = sbusDecodeChannelValue 992 false := by
    unfold sbusChannelsReadRawRC
    rw [hd]
  have h1500 : sbusDecodeChannelValue 992 false = 1500 := by decide
  refine ⟨hd, by decide, rfl, ?_, hr, h1500⟩
  have hp : (sbusChannelsInit SBUS_MAX_CHANNEL rx).rcReadRawFn
      = rcReadRawDataFnPtr.sbusChannelsReadRawRC := rfl
  unfold rcReadRawFn_call
  rw [hp]
  simp only [hr, h1500]

/-- The statement of `init_slots_and_read` for an array of 34 slots, at its
last slot. -/
theorem init_slots_and_read_witness :
    33 < 34 ∧
    (sbusChannelsInit 34 rx0).channelData 33 = 992 ∧
    rcReadRawFn_call (sbusChannelsInit 34 rx0) 33 = some 1500 :=
  have w := init_slots_and_read 34 rx0 33 (by decide)
  ⟨by decide, w.1, w.2.2.2.1⟩

/-! ## The raw-domain invariant -/

/-- A slot within the raw domain stays within it across `sbusChannelsDecode`. -/
theorem sbusChannelsDecode_le (m : SbusFlagMasks) (rx : rxRuntimeConfig_t)
    (c : sbusChannels_t) (j : Nat) (h : rx.channelData j ≤ 2047) :
    (sbusChannelsDecode m rx c).1.channelData j ≤ 2047 := by
  rw [sbusChannelsDecode_data]
  by_cases hj : j < 18
  · interval_cases j <;> norm_num <;> first | omega | (split_ifs <;> omega)
  · simp (disch := omega) only [if_neg]
    exact h

/-- A slot within the raw domain stays within it across either half of
`sbus26ChannelsDecode`. -/
theorem sbus26ChannelsDecode_le (m : SbusFlagMasks) (rx : rxRuntimeConfig_t)
    (c : sbusChannels_t) (highChannels : Bool) (j : Nat) (h : rx.channelData j ≤ 2047) :
    (sbus26ChannelsDecode m rx c highChannels).1.channelData j ≤ 2047 := by
  cases highChannels
  · rw [sbus26ChannelsDecode_low_data]
    by_cases hj : j < 16
    · interval_cases j <;> norm_num <;> omega
    · by_cases h32 : j = 32
      · subst h32
        norm_num
        split_ifs <;> omega
      · by_cases h33 : j = 33
        · subst h33
          norm_num
          split_ifs <;> omega
        · simp (disch := omega) only [if_neg]
          exact h
  · rw [sbus26ChannelsDecode_high_data]
    by_cases hj : j < 16
    · simp (disch := omega) only [if_neg]
      exact h
    · by_cases hj2 : j < 32
      · interval_cases j <;> norm_num <;> omega
      · simp (disch := omega) only [if_neg]
        exact h

/-- A slot within the raw domain stays within it across any sequence of decode
calls. -/
theorem runDecodes_le (m : SbusFlagMasks) (calls : List DecodeCall) (j : Nat) :
    ∀ rx : rxRuntimeConfig_t, rx.channelData j ≤ 2047 →
      (runDecodes m rx calls).channelData j ≤ 2047 := by
  induction calls with
  | nil => intro rx h; exact h
  | cons call rest ih =>
    intro rx h
    have hstep : (DecodeCall.apply m rx call).channelData j ≤ 2047 := by
      cases call with
      | standard c => exact sbusChannelsDecode_le m rx c j h
      | extended c hc => exact sbus26ChannelsDecode_le m rx c hc j h
    exact ih _ hstep

/-- C13: starting from the array left by `sbusChannelsInit`, after every finite
sequence of decode calls (standard, extended low half, extended high half, in
any order; the records' analog fields are in `[0, 2047]` by their type) every
slot of the array holds a value in `[0, 2047]`. -/
theorem raw_domain_invariant (m : SbusFlagMasks) (SBUS_MAX_CHANNEL : Nat)
    (rx : rxRuntimeConfig_t) (calls : List DecodeCall) (i : Nat)
    (hi : i < SBUS_MAX_CHANNEL) :
    0 ≤ (runDecodes m (sbusChannelsInit SBUS_MAX_CHANNEL rx) calls).channelData i ∧
    (runDecodes m (sbusChannelsInit SBUS_MAX_CHANNEL rx) calls).channelData i ≤ 2047 := by
  refine ⟨Nat.zero_le _, runDecodes_le m calls i _ ?_⟩
  rw [sbusChannelsInit_data, if_pos hi]
  decide

/-- The statement of `raw_domain_invariant` for an array of 34 slots that held
65535 everywhere before initialisation, after one call of each kind. -/
theorem raw_domain_invariant_witness :
    16 < 34 ∧
    (runDecodes masks0 (sbusChannelsInit 34 ⟨fun _ => 65535, rcReadRawDataFnPtr.unset⟩)
      [DecodeCall.standard (record0 3), DecodeCall.extended (record0 0) false,
        DecodeCall.extended (record0 0) true]).channelData 16 ≤ 2047 :=
  ⟨by decide,
    (raw_domain_invariant masks0 34 ⟨fun _ => 65535, rcReadRawDataFnPtr.unset⟩
      [DecodeCall.standard (record0 3), DecodeCall.extended (record0 0) false,
        DecodeCall.extended (record0 0) true] 16 (by decide)).2⟩

/-! ## Clamping of out-of-domain raw values and the end-to-end read -/

/-- C14: out-of-domain raw values are clamped: every 16-bit `raw > 2047`
decodes under the full policy like 2047, to 2159; under the safe policy every
`raw < 173` decodes to 988 and every `raw > 1812` to 2012.  So for every 16-bit
raw value the full-policy result is in `[880, 2159]` and the safe-policy
result in `[988, 2012]`. -/
theorem decode_clamps (raw : Nat) (h16 : raw < 65536) :
    (2047 < raw →
      sbusDecodeChannelValue raw false = sbusDecodeChannelValue 2047 false ∧
      sbusDecodeChannelValue raw false = 2159) ∧
    (raw < 173 → sbusDecodeChannelValue raw true = 988) ∧
    (1812 < raw → sbusDecodeChannelValue raw true = 2012) ∧
    (880 ≤ sbusDecodeChannelValue raw false ∧ sbusDecodeChannelValue raw false ≤ 2159) ∧
    (988 ≤ sbusDecodeChannelValue raw true ∧ sbusDecodeChannelValue raw true ≤ 2012) := by
  simp only [sbusDecodeChannelValue_full, sbusDecodeChannelValue_safe]
  omega

/-- The statement of `decode_clamps` at the largest 16-bit value and at 0. -/
theorem decode_clamps_witness :
    (65535 < 65536 ∧ 2047 < 65535 ∧ 1812 < 65535 ∧ 0 < 65536 ∧ 0 < 173) ∧
    sbusDecodeChannelValue 65535 false = 2159 ∧
    sbusDecodeChannelValue 65535 true = 2012 ∧
    sbusDecodeChannelValue 0 true = 988 :=
  have w := decode_clamps 65535 (by decide)
  have w0 := decode_clamps 0 (by decide)
  ⟨by decide, (w.1 (by decide)).2, w.2.2.1 (by decide), w0.2.1 (by decide)⟩

/-- C15: after `sbusChannelsDecode` the read accessor `sbusChannelsReadRawRC`
returns `sbusDecodeChannelValue chan_i false` for every analog slot `i` in
0..15, and for slot 16 it returns 2012 when `digitalChannel1` is set and 988
when it is clear, likewise for slot 17 with `digitalChannel2`: the digital
values read back as the two ends of the safe normalized range. -/
theorem read_after_decode (m : SbusFlagMasks) (rx : rxRuntimeConfig_t)
    (c : sbusChannels_t) :
    (∀ i : Fin 16,
      sbusChannelsReadRawRC (sbusChannelsDecode m rx c).1 i.val
        = sbusDecodeChannelValue (c.chan i).val false) ∧
    sbusChannelsReadRawRC (sbusChannelsDecode m rx c).1 16
      = (if flagSet c.flags m.SBUS_FLAG_CHANNEL_DG1 = true then 2012 else 988) ∧
    sbusChannelsReadRawRC (sbusChannelsDecode m rx c).1 17
      = (if flagSet c.flags m.SBUS_FLAG_CHANNEL_DG2 = true then 2012 else 988) ∧
    sbusDecodeChannelValue 173 true = 988 ∧ sbusDecodeChannelValue 1812 true = 2012 := by
  have h16 : (sbusChannelsDecode m rx c).1.channelData 16 =
      (if flagSet c.flags m.SBUS_FLAG_CHANNEL_DG1 = true then 1812 else 173) := by
    rw [sbusChannelsDecode_data]
    rfl
  have h17 : (sbusChannelsDecode m rx c).1.channelData 17 =
      (if flagSet c.flags m.SBUS_FLAG_CHANNEL_DG2 = true then 1812 else 173) := by
    rw [sbusChannelsDecode_data]
    rfl
  refine ⟨fun i => ?_, ?_, ?_, by decide, by decide⟩
  · unfold sbusChannelsReadRawRC
    rw [sbusChannelsDecode_data]
    fin_cases i <;> rfl
  · unfold sbusChannelsReadRawRC
    rw [h16]
    cases flagSet c.flags m.SBUS_FLAG_CHANNEL_DG1 <;> decide
  · unfold sbusChannelsReadRawRC
    rw [h17]
    cases flagSet c.flags m.SBUS_FLAG_CHANNEL_DG2 <;> decide

/-! ## The rounding of the encode -/

/-- The quotient by 5 rounded up is the integer division after adding 4. -/
theorem ceil_div_five (x : Int) : ⌈((x : Int) : ℚ) / 5⌉ = (x + 4) / 5 := by
  rw [Int.ceil_eq_iff]
  have h1 : 5 * ((x + 4) / 5) - 5 < x := by omega
  have h2 : x ≤ 5 * ((x + 4) / 5) := by omega
  have h1q : (5 : ℚ) * (((x + 4) / 5 : Int) : ℚ) - 5 < (x : ℚ) := by exact_mod_cast h1
  have h2q : (x : ℚ) ≤ 5 * (((x + 4) / 5 : Int) : ℚ) := by exact_mod_cast h2
  constructor
  · rw [lt_div_iff₀ (by norm_num)]
    linarith
  · rw [div_le_iff₀ (by norm_num)]
    linarith

/-- C16, as stated, fails: for the normalized value 992 the exact quotient is
`896 / 5 = 179.2`, which rounds to 179 (nearest, ties up), while
`sbusEncodeChannelValue 992` is 180. -/
theorem encode_not_round_half_up :
    880 ≤ 992 ∧ 992 ≤ 65535 ∧
    sbusEncodeChannelValue 992 = 180 ∧
    roundHalfUp ((((((992 : Nat) : Int) - 880) * 8 : Int) : ℚ) / 5) = 179 ∧
    ((sbusEncodeChannelValue 992 : Nat) : Int) ≠
      specClamp (roundHalfUp ((((((992 : Nat) : Int) - 880) * 8 : Int) : ℚ) / 5)) 173 1812 := by
  have hr : roundHalfUp ((((((992 : Nat) : Int) - 880) * 8 : Int) : ℚ) / 5) = 179 := by
    unfold roundHalfUp
    rw [Int.floor_eq_iff]
    norm_num
  have he : sbusEncodeChannelValue 992 = 180 := by decide
  refine ⟨by decide, by decide, he, hr, ?_⟩
  rw [hr, he]
  decide

/-- C16, amended: the `+4` in `sbusEncodeChannelValue` rounds the division by 5
up: for every normalized value `n` in `[880, 65535]`,
`sbusEncodeChannelValue n` equals `clamp(r, 173, 1812)` where `r` is the
rational `(n - 880) * 8 / 5` rounded up to the next integer. -/
theorem encode_rounds_up (n : Nat) (h1 : 880 ≤ n) (h2 : n ≤ 65535) :
    ((sbusEncodeChannelValue n : Nat) : Int) =
      specClamp ⌈(((((n : Nat) : Int) - 880) * 8 : Int) : ℚ) / 5⌉ 173 1812 := by
  rw [sbusEncodeChannelValue_eq, if_neg (by omega), ceil_div_five]
  unfold specClamp
  omega

/-- The statement of `encode_rounds_up` at 992, where rounding up and rounding
to nearest differ. -/
theorem encode_rounds_up_witness :
    (880 ≤ 992 ∧ 992 ≤ 65535) ∧
    ((sbusEncodeChannelValue 992 : Nat) : Int) =
      specClamp ⌈(((((992 : Nat) : Int) - 880) * 8 : Int) : ℚ) / 5⌉ 173 1812 :=
  ⟨by decide, encode_rounds_up 992 (by decide) (by decide)⟩

/-! ## Round trips of the codec -/

/-- C17: the encode and the safe decode are not exact inverses on the safe raw
range: some interior raw value `x`, with `173 < x < 1812`, comes back from
decode-then-encode different from `x`, by exactly one raw unit. -/
theorem raw_round_trip_not_exact :
    ∃ x : Nat, 173 < x ∧ x < 1812 ∧
      sbusEncodeChannelValue (sbusDecodeChannelValue x true) ≠ x ∧
      sbusEncodeChannelValue (sbusDecodeChannelValue x true) + 1 = x :=
  ⟨174, by decide, by decide, by decide, by decide⟩

/-- C18: in the other direction the codec is exact: for every normalized value
`n` in `[988, 2012]`, decoding `sbusEncodeChannelValue n` gives back `n`, under
the safe policy and under the full policy; hence `sbusEncodeChannelValue` is
injective on `[988, 2012]`. -/
theorem normalized_round_trip (n n' : Nat) (h1 : 988 ≤ n) (h2 : n ≤ 2012)
    (h1' : 988 ≤ n') (h2' : n' ≤ 2012) :
    sbusDecodeChannelValue (sbusEncodeChannelValue n) true = n ∧
    sbusDecodeChannelValue (sbusEncodeChannelValue n) false = n ∧
    (sbusEncodeChannelValue n = sbusEncodeChannelValue n' → n = n') := by
  have key : ∀ k : Nat, 988 ≤ k → k ≤ 2012 →
      sbusDecodeChannelValue (sbusEncodeChannelValue k) true = k ∧
      sbusDecodeChannelValue (sbusEncodeChannelValue k) false = k := by
    intro k hk1 hk2
    simp only [sbusEncodeChannelValue_eq, sbusDecodeChannelValue_safe,
      sbusDecodeChannelValue_full]
    rw [if_neg (by omega)]
    omega
  refine ⟨(key n h1 h2).1, (key n h1 h2).2, fun h => ?_⟩
  have e1 := (key n h1 h2).1
  have e2 := (key n' h1' h2').1
  rw [h] at e1
  omega

/-- The statement of `normalized_round_trip` at the mid-stick value 1500 and
at 1501. -/
theorem normalized_round_trip_witness :
    (988 ≤ 1500 ∧ 1500 ≤ 2012 ∧ 988 ≤ 1501 ∧ 1501 ≤ 2012) ∧
    sbusDecodeChannelValue (sbusEncodeChannelValue 1500) true = 1500 ∧
    sbusDecodeChannelValue (sbusEncodeChannelValue 1500) false = 1500 ∧
    (sbusEncodeChannelValue 1500 = sbusEncodeChannelValue 1501 → 1500 = 1501) :=
  ⟨by decide, normalized_round_trip 1500 1501 (by decide) (by decide) (by decide) (by decide)⟩

/-- The safe round trip of a raw value in `[173, 1812]` is the value itself or
one below it, and stays in `[173, 1812]`. -/
theorem rawRoundTrip_bounds (x : Nat) (h1 : 173 ≤ x) (h2 : x ≤ 1812) :
    (rawRoundTrip x = x ∨ rawRoundTrip x = x - 1) ∧ 173 ≤ rawRoundTrip x := by
  unfold rawRoundTrip
  simp only [sbusDecodeChannelValue_safe, sbusEncodeChannelValue_eq]
  rw [if_neg (by omega)]
  omega

/-- C20: the drift of the raw round trip is one-sided: for every `x` in
`[173, 1812]`, `sbusEncodeChannelValue (sbusDecodeChannelValue x true)` is `x`
or `x - 1` and never above `x`; so applying decode-then-encode any number of
times never raises a raw value. -/
theorem raw_round_trip_one_sided (x : Nat) (h1 : 173 ≤ x) (h2 : x ≤ 1812) (k : Nat) :
    (sbusEncodeChannelValue (sbusDecodeChannelValue x true) = x ∨
      sbusEncodeChannelValue (sbusDecodeChannelValue x true) = x - 1) ∧
    sbusEncodeChannelValue (sbusDecodeChannelValue x true) ≤ x ∧
    rawRoundTrip^[k] x ≤ x := by
  have hb := rawRoundTrip_bounds x h1 h2
  have hit : ∀ (k : Nat) (y : Nat), 173 ≤ y → y ≤ 1812 → rawRoundTrip^[k] y ≤ y := by
    intro k
    induction k with
    | zero => intro y _ _; exact Nat.le_refl y
    | succ j ih =>
      intro y hy1 hy2
      have hy := rawRoundTrip_bounds y hy1 hy2
      rw [Function.iterate_succ_apply]
      have := ih (rawRoundTrip y) hy.2 (by omega)
      omega
  refine ⟨hb.1, ?_, hit k x h1 h2⟩
  have h := hb.1
  unfold rawRoundTrip at h
  omega

/-- The statement of `raw_round_trip_one_sided` at the raw value 177, which the
first round trip lowers to 176, a fixed point. -/
theorem raw_round_trip_one_sided_witness :
    (173 ≤ 177 ∧ 177 ≤ 1812) ∧
    sbusEncodeChannelValue (sbusDecodeChannelValue 177 true) ≤ 177 ∧
    rawRoundTrip^[3] 177 ≤ 177 ∧ rawRoundTrip 177 = 176 ∧ rawRoundTrip 176 = 176 :=
  have w := raw_round_trip_one_sided 177 (by decide) (by decide) 3
  ⟨by decide, w.2.1, w.2.2, by decide, by decide⟩

/-! ## Slots a decode call leaves alone -/

/-- Two configurations with the same fields are equal. -/
theorem rxRuntimeConfig_t.eq_of_fields (a b : rxRuntimeConfig_t)
    (h1 : a.channelData = b.channelData) (h2 : a.rcReadRawFn = b.rcReadRawFn) : a = b := by
  cases a
  cases b
  simp only at h1 h2
  rw [h1, h2]

/-- The extended decoder leaves the registered accessor as it was. -/
theorem sbus26ChannelsDecode_rcReadRawFn (m : SbusFlagMasks) (rx : rxRuntimeConfig_t)
    (c : sbusChannels_t) (highChannels : Bool) :
    (sbus26ChannelsDecode m rx c highChannels).1.rcReadRawFn = rx.rcReadRawFn := by
  unfold sbus26ChannelsDecode
  dsimp only
  split_ifs <;> rfl

/-- C19: each decode call leaves every slot it does not own at its prior
value: `sbusChannelsDecode` changes at most slots 0..17; the low half of
`sbus26ChannelsDecode` changes at most slots 0..15, 32 and 33; the high half
changes at most slots 16..31.  Hence a low-half and a high-half decode commute,
and the low half writes slot 33, so it needs an array of at least 34 slots. -/
theorem decode_frame_effects (m : SbusFlagMasks) (rx : rxRuntimeConfig_t)
    (c c' : sbusChannels_t) :
    (∀ j : Nat, 18 ≤ j →
      (sbusChannelsDecode m rx c).1.channelData j = rx.channelData j) ∧
    (∀ j : Nat, 16 ≤ j → j ≠ 32 → j ≠ 33 →
      (sbus26ChannelsDecode m rx c false).1.channelData j = rx.channelData j) ∧
    (∀ j : Nat, j < 16 ∨ 32 ≤ j →
      (sbus26ChannelsDecode m rx c true).1.channelData j = rx.channelData j) ∧
    (sbus26ChannelsDecode m (sbus26ChannelsDecode m rx c false).1 c' true).1 =
      (sbus26ChannelsDecode m (sbus26ChannelsDecode m rx c' true).1 c false).1 ∧
    (sbus26ChannelsDecode m rx c false).1.channelData 33 =
      (if flagSet c.flags m.SBUS_FLAG_CHANNEL_DG2 = true then 1812 else 173) := by
  refine ⟨fun j hj => ?_, fun j hj h32 h33 => ?_, fun j hj => ?_, ?_, ?_⟩
  · rw [sbusChannelsDecode_data]
    simp (disch := omega) only [if_neg]
  · rw [sbus26ChannelsDecode_low_data]
    simp (disch := omega) only [if_neg]
  · rw [sbus26ChannelsDecode_high_data]
    simp (disch := omega) only [if_neg]
  · apply rxRuntimeConfig_t.eq_of_fields
    · funext j
      simp only [sbus26ChannelsDecode_high_data, sbus26ChannelsDecode_low_data]
      by_cases hj : j < 34
      · interval_cases j <;> rfl
      · simp (disch := omega) only [if_neg]
    · simp only [sbus26ChannelsDecode_rcReadRawFn]
  · rw [sbus26ChannelsDecode_low_data]
    rfl

/-- The statement of `decode_frame_effects` on an array holding 7 in every
slot: slot 20 after the standard decoder, slot 16 after the low half and slot
33 after the high half still hold 7. -/
theorem decode_frame_effects_witness :
    ((18 ≤ 20) ∧ (16 ≤ 16 ∧ 16 ≠ 32 ∧ 16 ≠ 33) ∧ (32 ≤ 33)) ∧
    (sbusChannelsDecode masks0 ⟨fun _ => 7, rcReadRawDataFnPtr.unset⟩
      (record0 3)).1.channelData 20 = 7 ∧
    (sbus26ChannelsDecode masks0 ⟨fun _ => 7, rcReadRawDataFnPtr.unset⟩
      (record0 3) false).1.channelData 16 = 7 ∧
    (sbus26ChannelsDecode masks0 ⟨fun _ => 7, rcReadRawDataFnPtr.unset⟩
      (record0 3) true).1.channelData 33 = 7 ∧
    (sbus26ChannelsDecode masks0 ⟨fun _ => 7, rcReadRawDataFnPtr.unset⟩
      (record0 3) false).1.channelData 33 = 1812 :=
  have w := decode_frame_effects masks0 ⟨fun _ => 7, rcReadRawDataFnPtr.unset⟩
    (record0 3) (record0 0)
  ⟨by decide, w.1 20 (by decide), w.2.1 16 (by decide) (by decide) (by decide),
    w.2.2.1 33 (Or.inr (by decide)), w.2.2.2.2⟩

end Sbus
